import Mathlib

/-!
Verification development for the CardboardMaid data-acquisition pipeline
(BoardGameGeek XMLAPI2 client).  The definitions below are a shallow
embedding of the TypeScript sources:

  * `src/lib/xml-parser.ts`   — generic XML→JSON converter and extractors
  * `src/services/bgg-api.ts` — retrying fetcher and API client operations
  * `src/lib/game-mapper.ts`  — normalizer / merger into the `Game` entity
  * the plays aggregation inlined in the `GameDetail` page
  * the weighted random selector

JavaScript dynamic values are modelled by `JsonVal`; `undefined` is
modelled by `Option`; thrown exceptions by `Except`/explicit error
results; `Math.random()` and the network are passed in as explicit
arguments.  JS numbers are modelled exactly as finite decimals `JsNum`
(mantissa over a power of ten); the `NaN` results of `parseInt` and
`parseFloat` are modelled as `none`.  Every value this pipeline actually
manipulates is a short decimal, for which this model is exact.
-/

/-- A JS number, represented exactly as the decimal `m / 10^e`.  The
representation is not unique; value-level comparisons go through the
cross-multiplied tests below, and `jsnVal` gives the rational value. -/
structure JsNum where
  m : Int
  e : Nat
deriving DecidableEq, Repr

/-- The rational value of a `JsNum` (used in specification statements;
the executable operations below never divide). -/
def jsnVal (a : JsNum) : ℚ :=
  (a.m : ℚ) / (10 : ℚ) ^ a.e

/-- Value equality of JS numbers (`===` on numbers). -/
def jsnEq (a b : JsNum) : Bool :=
  a.m * (10 : Int) ^ b.e == b.m * (10 : Int) ^ a.e

/-- Value order `a <= b` on JS numbers. -/
def jsnLe (a b : JsNum) : Bool :=
  decide (a.m * (10 : Int) ^ b.e ≤ b.m * (10 : Int) ^ a.e)

/-- Value order `a < b` on JS numbers. -/
def jsnLt (a b : JsNum) : Bool :=
  decide (a.m * (10 : Int) ^ b.e < b.m * (10 : Int) ^ a.e)

/-- JS `+` on numbers. -/
def jsnAdd (a b : JsNum) : JsNum :=
  ⟨a.m * (10 : Int) ^ b.e + b.m * (10 : Int) ^ a.e, a.e + b.e⟩

/-- JS `*` on numbers. -/
def jsnMul (a b : JsNum) : JsNum :=
  ⟨a.m * b.m, a.e + b.e⟩

/-- JS `Math.pow` on a decimal base with a natural exponent. -/
def jsnPow (a : JsNum) (n : Nat) : JsNum :=
  ⟨a.m ^ n, a.e * n⟩

/-- The JS number with integer value `n`. -/
def jsnInt (n : Int) : JsNum :=
  ⟨n, 0⟩

/-- Truncation toward zero, the value of `parseInt` on a number's
decimal string. -/
def jsnTrunc (a : JsNum) : Int :=
  a.m.tdiv ((10 : Int) ^ a.e)

/-- Strip trailing decimal zeros (`fuel` bounds the exponent), so that
printing matches the canonical JS decimal output. -/
def jsnReduce : Nat → JsNum → JsNum
  | 0, a => a
  | fuel + 1, a =>
      if a.e = 0 then a
      else if a.m % 10 == 0 then jsnReduce fuel ⟨a.m.tdiv 10, a.e - 1⟩
      else a

/-- Decimal digits of `n` left-padded with zeros to width `w`. -/
def padDigits (w : Nat) (n : Nat) : String :=
  let s := toString n
  String.mk (List.replicate (w - s.length) '0') ++ s

/-- Model of JS number-to-string conversion for finite decimals. -/
def jsnToString (a : JsNum) : String :=
  let r := jsnReduce a.e a
  let sgn := if r.m < 0 then "-" else ""
  let n := r.m.natAbs
  let ip := n / 10 ^ r.e
  let fr := n % 10 ^ r.e
  sgn ++ toString ip ++ (if r.e = 0 then "" else "." ++ padDigits r.e fr)

/-- A JavaScript value as produced by the XML→JSON conversion in
`xml-parser.ts`: a string scalar, a number scalar, a plain object
(field list in insertion order, keys unique), or an array. -/
inductive JsonVal where
  | str (s : String)
  | num (q : JsNum)
  | obj (fields : List (String × JsonVal))
  | arr (elems : List JsonVal)

/-- JS truthiness of a defined value (`""` and `0` are falsy; any object
or array is truthy; no scalar in this model is `NaN`). -/
def truthy : JsonVal → Bool
  | .str s => s != ""
  | .num q => !(q.m == 0)
  | .obj _ => true
  | .arr _ => true

/-- JS truthiness of a possibly-`undefined` value. -/
def truthyO : Option JsonVal → Bool
  | none => false
  | some v => truthy v

/-- JS strict equality `===` against another value.  Scalars compare by
value; distinct objects/arrays compare by reference, and every comparison
in the embedded sources is against a freshly parsed value versus a scalar
literal, so the object cases are `false`. -/
def jsEq : JsonVal → JsonVal → Bool
  | .str s, .str t => s == t
  | .num p, .num q => jsnEq p q
  | _, _ => false

/-- `x === lit` where `x` may be `undefined` (`undefined === lit` is false). -/
def jsEqO (a : Option JsonVal) (b : JsonVal) : Bool :=
  match a with
  | none => false
  | some v => jsEq v b

/-- JS property access `v[k]` for the keys used by the extractors:
defined only on plain objects, `undefined` otherwise. -/
def jget : JsonVal → String → Option JsonVal
  | .obj fields, k => fields.lookup k
  | _, _ => none

/-- JS optional chaining `v?.k`. -/
def jgetO (v : Option JsonVal) (k : String) : Option JsonVal :=
  v.bind (fun w => jget w k)

/-- JS `a || b` on possibly-`undefined` operands: the first operand if it
is defined and truthy, otherwise the second. -/
def jsOrO (a b : Option JsonVal) : Option JsonVal :=
  if truthyO a then a else b

/-- JS `a || d` with a defined default: used for patterns like
`bggGame.name || ""`. -/
def jsOrVal (a : Option JsonVal) (d : JsonVal) : JsonVal :=
  match a with
  | some v => if truthy v then v else d
  | none => d

/-- Whether the character list `pat` occurs as a contiguous run in `s`
(model of JS `String.prototype.includes`). -/
def listHasRun (s pat : List Char) : Bool :=
  match s with
  | [] => pat.isEmpty
  | _ :: t => (pat.isPrefixOf s) || listHasRun t pat

/-- Model of JS `s.includes(pat)`. -/
def strIncludes (s pat : String) : Bool :=
  listHasRun s.toList pat.toList

/-- Leading-whitespace skip used by JS `parseInt`/`parseFloat`. -/
def skipWs (cs : List Char) : List Char :=
  cs.dropWhile (fun c => c.isWhitespace)

/-- Whitespace trim on both ends (model of JS `String.prototype.trim`). -/
def strTrim (s : String) : String :=
  String.mk (((skipWs s.toList).reverse.dropWhile (fun c => c.isWhitespace)).reverse)

/-- Numeric value of a run of decimal digit characters. -/
def natOfDigits (ds : List Char) : ℕ :=
  ds.foldl (fun n c => 10 * n + (c.toNat - 48)) 0

/-- Model of JS `parseFloat` (radix 10; exponent forms are not modelled —
no embedded call site ever receives an exponent-shaped string): skip
leading whitespace, optional sign, digits, optional `.` digits.  `none`
models `NaN`. -/
def parseFloatStr (s : String) : Option JsNum :=
  let cs := skipWs s.toList
  let neg := cs.head? = some '-'
  let cs2 := if cs.head? = some '-' || cs.head? = some '+' then cs.drop 1 else cs
  let ip := cs2.takeWhile (fun c => c.isDigit)
  let rest := cs2.drop ip.length
  let fp := if rest.head? = some '.' then (rest.drop 1).takeWhile (fun c => c.isDigit) else []
  if ip.isEmpty && fp.isEmpty then none
  else
    let mag : Int := (natOfDigits ip : Int) * (10 : Int) ^ fp.length + (natOfDigits fp : Int)
    some ⟨if neg then -mag else mag, fp.length⟩

/-- Model of JS `parseInt(s, 10)`: skip leading whitespace, optional
sign, then the longest run of decimal digits; `none` models `NaN`. -/
def parseIntStr (s : String) : Option Int :=
  let cs := skipWs s.toList
  let neg := cs.head? = some '-'
  let cs2 := if cs.head? = some '-' || cs.head? = some '+' then cs.drop 1 else cs
  let ds := cs2.takeWhile (fun c => c.isDigit)
  if ds.isEmpty then none
  else some (if neg then -(natOfDigits ds : Int) else (natOfDigits ds : Int))

/-- Model of JS `String(v)`, with fuel bounding array nesting depth
(arrays join their elements with `","`; no value in this pipeline nests
arrays anywhere near the bound). -/
def jsToStringFuel : Nat → JsonVal → String
  | _, .str s => s
  | _, .num q => jsnToString q
  | _, .obj _ => "[object Object]"
  | 0, .arr _ => ""
  | fuel + 1, .arr l => String.intercalate "," (l.map (jsToStringFuel fuel))

/-- Model of JS `String(v)` / `v.toString()`. -/
def jsToString (v : JsonVal) : String :=
  jsToStringFuel 100 v

/-- Model of JS `String(v)` where `v` may be `undefined`. -/
def jsToStringO (v : Option JsonVal) : String :=
  match v with
  | none => "undefined"
  | some w => jsToString w

/-- Model of `parseInt(String(v), 10)` (`xml-parser.ts` / `game-mapper.ts`
coercion pattern). -/
def parseIntOfVal (v : JsonVal) : Option Int :=
  parseIntStr (jsToString v)

/-- Model of `parseFloat(String(v))`. -/
def parseFloatOfVal (v : JsonVal) : Option JsNum :=
  parseFloatStr (jsToString v)

/-- The numeric-shape test of `parseValue` (`xml-parser.ts:72`), the
regex `^-?\d+\.?\d*$`: optional minus, at least one digit, optionally a
dot followed by zero or more digits. -/
def isNumericShape (s : String) : Bool :=
  let cs := s.toList
  let cs2 := if cs.head? = some '-' then cs.drop 1 else cs
  let ds := cs2.takeWhile (fun c => c.isDigit)
  let rest := cs2.drop ds.length
  !ds.isEmpty && (rest.isEmpty || (rest.head? = some '.' && (rest.drop 1).all (fun c => c.isDigit)))

/-- `parseValue` (`xml-parser.ts:70-76`): a string matching the numeric
pattern is coerced with `parseFloat`; anything else stays a string. -/
def parseValue (s : String) : JsonVal :=
  if isNumericShape s then .num ((parseFloatStr s).getD ⟨0, 0⟩) else .str s

mutual
/-- A well-formed XML element as handed to `xmlElementToJson`: tag name,
attribute list (document order), child elements, and the (already
concatenated) text content used when there are no child elements. -/
inductive Xml where
  | elem (tag : String) (attrs : List (String × String)) (children : XmlKids) (text : String)

/-- The child-element list of an element (a mutual inductive so that all
functions below reduce definitionally). -/
inductive XmlKids where
  | nil
  | cons (head : Xml) (tail : XmlKids)
end

/-- Build an `XmlKids` list from a Lean list (convenience for concrete
documents in theorems). -/
def xmlKidsOf : List Xml → XmlKids
  | [] => .nil
  | x :: t => .cons x (xmlKidsOf t)

/-- Tag name of an element (`element.tagName`). -/
def Xml.tagName : Xml → String
  | .elem t _ _ _ => t

/-- JS property assignment `o[k] = v` on a plain object: overwrite in
place if the key exists, otherwise append. -/
def setKey : List (String × JsonVal) → String → JsonVal → List (String × JsonVal)
  | [], k, v => [(k, v)]
  | (k0, v0) :: rest, k, v =>
      if k0 = k then (k0, v) :: rest else (k0, v0) :: setKey rest k v

/-- The duplicate-tag handling of `xmlElementToJson` (`xml-parser.ts:52-60`):
if the key is unassigned, plain assignment; if it already holds an array,
push; otherwise promote the existing value to an array of both. -/
def addChild (o : List (String × JsonVal)) (k : String) (v : JsonVal) : List (String × JsonVal) :=
  match o.lookup k with
  | none => setKey o k v
  | some (.arr l) => setKey o k (.arr (l ++ [v]))
  | some w => setKey o k (.arr [w, v])

mutual
/-- `xmlElementToJson` (`xml-parser.ts:26-65`): attributes become keys
with coerced scalar values; a leaf with text and no attributes reduces to
the coerced text; a leaf with attributes and text stores the text under
`_text`; children are converted recursively and assigned under their tag
names through `addChild`. -/
def xmlElementToJson : Xml → JsonVal
  | .elem _ attrs children text =>
      let obj0 := attrs.foldl (fun o a => setKey o a.1 (parseValue a.2)) []
      match children with
      | .nil =>
          let t := strTrim text
          if t != "" && obj0.isEmpty then parseValue t
          else if t != "" then .obj (setKey obj0 "_text" (parseValue t))
          else .obj obj0
      | .cons c cs =>
          .obj ((convertKids (.cons c cs)).foldl (fun o kv => addChild o kv.1 kv.2) obj0)

/-- The child-conversion loop of `xmlElementToJson`: each child paired
with its tag name, in document order. -/
def convertKids : XmlKids → List (String × JsonVal)
  | .nil => []
  | .cons c rest => (c.tagName, xmlElementToJson c) :: convertKids rest
end

/-- The outcome of `DOMParser.parseFromString`: either a well-formed
document (with its root element) or a document containing a
`parsererror` node carrying a message. -/
inductive XmlDoc where
  | malformed (msg : String)
  | wellFormed (root : Xml)

/-- `parseXmlToJson` (`xml-parser.ts:10-21`): throws
`XML parsing error: …` when the parser reported an error, otherwise
converts the document element.  The `Except` error is the thrown
exception. -/
def parseXmlToJson : XmlDoc → Except String JsonVal
  | .malformed msg => .error ("XML parsing error: " ++ msg)
  | .wellFormed root => .ok (xmlElementToJson root)

/-- `isBggProcessing` (`xml-parser.ts:296-303`):
`json?.html?.body?.p?.includes("processed") || false`, with every failure
mode (parse throw, non-string `p` raising a `TypeError` on `.includes`,
absent path) recovered to `false`.  When `p` is an array, JS
`Array.prototype.includes` is membership of the exact string. -/
def isBggProcessing (d : XmlDoc) : Bool :=
  match parseXmlToJson d with
  | .error _ => false
  | .ok json =>
      match jgetO (jgetO (jget json "html") "body") "p" with
      | some (.str s) => strIncludes s "processed"
      | some (.arr l) => l.any (fun v => jsEq v (.str "processed"))
      | _ => false

/-- The record returned by `parseUserInfo` (`xml-parser.ts:82-106`);
every field can be `undefined` at runtime even though the declared
TypeScript type requires `id` and `name` to be strings. -/
structure UserInfoM where
  id : Option JsonVal
  name : Option JsonVal
  yearregistered : Option JsonVal
  lastmodified : Option JsonVal

/-- `parseUserInfo` (`xml-parser.ts:82-106`): `none` models the `null`
result (error marker, falsy payload, or parse throw caught by the
`try`/`catch`); otherwise the field fallback chains
`json.id?._text || json.id || json["@attributes"]?.id` and so on. -/
def parseUserInfo (d : XmlDoc) : Option UserInfoM :=
  match parseXmlToJson d with
  | .error _ => none
  | .ok json =>
      if !truthy json
          || jsEqO (jgetO (jget json "@attributes") "type") (.str "error")
          || truthyO (jget json "error") then
        none
      else
        some
          { id := jsOrO (jgetO (jget json "id") "_text")
              (jsOrO (jget json "id") (jgetO (jget json "@attributes") "id")),
            name := jsOrO (jgetO (jget json "name") "_text")
              (jsOrO (jget json "name") (jgetO (jget json "@attributes") "name")),
            yearregistered := jsOrO (jgetO (jget json "yearregistered") "_text")
              (jget json "yearregistered"),
            lastmodified := jsOrO (jgetO (jget json "lastmodified") "_text")
              (jget json "lastmodified") }

/-- `parseCollection` (`xml-parser.ts:112-186`).  The per-item record
construction (lines 128-181) is passed in as `mapItem`: no claim depends
on its fields, and the control flow around it — the `try`/`catch`
returning `[]`, the `json.item || json.items?.item` lookup, the falsy
check, and the array normalization — is embedded exactly. -/
def parseCollection {α : Type} (mapItem : JsonVal → α) (d : XmlDoc) : List α :=
  match parseXmlToJson d with
  | .error _ => []
  | .ok json =>
      match jsOrO (jget json "item") (jgetO (jget json "items") "item") with
      | none => []
      | some items =>
          if !truthy items then []
          else
            match items with
            | .arr l => l.map mapItem
            | v => [mapItem v]

/-- An HTTP response as seen by the client after `fetch` resolves. -/
structure ResponseM where
  status : Nat
  statusText : String
  body : XmlDoc

/-- Observable outcome of `fetchWithRetry`: the returned response or the
escaping exception, together with how many `fetch` calls were issued and
the total milliseconds spent in `sleep`. -/
structure FetchOutcome where
  result : Except String ResponseM
  fetchCalls : Nat
  totalSleep : Nat

/-- The `while` loop of `fetchWithRetry` (`bgg-api.ts:139-188`).
`fetchResult i` is the outcome of the `i`-th `fetch` call (`.error`
models a rejected fetch).  `fuel` only bounds the recursion; it is
initialized to `maxRetries`, which suffices because every non-returning
iteration increments `attempt` and the loop requires
`attempt < maxRetries`.  The `catch` block (lines 177-187) is
`catchStep`; the two in-`try` `throw`s at the retry ceiling (lines 152
and 168) flow into it with the already-incremented attempt counter,
where `attempt + 1 ≥ maxRetries` forces the rethrow. -/
def fetchLoop (fetchResult : Nat → Except String ResponseM) (maxRetries : Nat) :
    Nat → Nat → Nat → Nat → Nat → Option String → FetchOutcome
  | 0, _, idx, _, slept, lastErr =>
      ⟨.error (lastErr.getD "Maximum retries exceeded"), idx, slept⟩
  | fuel + 1, attempt, idx, delay, slept, lastErr =>
      if maxRetries ≤ attempt then
        ⟨.error (lastErr.getD "Maximum retries exceeded"), idx, slept⟩
      else
        let catchStep := fun (e : String) (att : Nat) =>
          if maxRetries ≤ att + 1 then (⟨.error e, idx + 1, slept⟩ : FetchOutcome)
          else fetchLoop fetchResult maxRetries fuel (att + 1) (idx + 1) (delay * 2)
            (slept + delay) (some e)
        match fetchResult idx with
        | .error e => catchStep e attempt
        | .ok r =>
            if r.status = 200 then ⟨.ok r, idx + 1, slept⟩
            else if r.status = 202 then
              if maxRetries ≤ attempt + 1 then
                catchStep "BGG API is still processing the request after maximum retries"
                  (attempt + 1)
              else
                fetchLoop fetchResult maxRetries fuel (attempt + 1) (idx + 1) (delay * 2)
                  (slept + delay) lastErr
            else if 400 ≤ r.status && r.status < 500 then ⟨.ok r, idx + 1, slept⟩
            else if 500 ≤ r.status then
              if maxRetries ≤ attempt + 1 then
                catchStep ("BGG API returned status " ++ toString r.status ++ " after "
                  ++ toString maxRetries ++ " retries") (attempt + 1)
              else
                fetchLoop fetchResult maxRetries fuel (attempt + 1) (idx + 1) (delay * 2)
                  (slept + delay) lastErr
            else
              catchStep ("BGG API returned status " ++ toString r.status) attempt

/-- `MAX_RETRIES` (`bgg-api.ts:114`). -/
def MAX_RETRIES : Nat := 5

/-- `INITIAL_RETRY_DELAY` in milliseconds (`bgg-api.ts:115`). -/
def INITIAL_RETRY_DELAY : Nat := 2000

/-- `fetchWithRetry` (`bgg-api.ts:130-191`) over an abstract sequence of
fetch outcomes. -/
def fetchWithRetry (fetchResult : Nat → Except String ResponseM)
    (maxRetries : Nat := MAX_RETRIES) (initialDelay : Nat := INITIAL_RETRY_DELAY) :
    FetchOutcome :=
  fetchLoop fetchResult maxRetries maxRetries 0 0 initialDelay 0 none

/-- The discriminated result type `BggApiResult` (`bgg-api.ts:21-23`):
`{success:true, data}` or `{success:false, error, retryLater?, backoff?}`. -/
inductive BggApiResult (α : Type) where
  | ok (data : α)
  | fail (error : String) (retryLater : Option Bool) (backoff : Option Nat)

/-- A response source that always yields the same response (helper for
concrete scenarios). -/
def constFetch (r : ResponseM) : Nat → Except String ResponseM :=
  fun _ => .ok r

/-- Build a response. -/
def mkResp (status : Nat) (statusText : String) (body : XmlDoc) : ResponseM :=
  ⟨status, statusText, body⟩

/-- `validateUsername` (`bgg-api.ts:199-280`) after URL construction,
over the fetch-outcome sequence consumed by its `fetchWithRetry` call.
The function's whole body is wrapped in `try`/`catch`; the `catch`
branch (lines 265-279) receives the fetcher's escaping error and applies
the fetch-failure heuristic to choose `retryLater`. -/
def validateUsername (fetchResult : Nat → Except String ResponseM)
    (username : String) : BggApiResult UserInfoM :=
  if strTrim username = "" then .fail "Username cannot be empty" none none
  else
    match (fetchWithRetry fetchResult).result with
    | .error e =>
        let isFetchFailure := strIncludes e "Failed to fetch" || strIncludes e "fetch"
          || strIncludes e "Network" || strIncludes e "CORS"
        .fail e (some !isFetchFailure) none
    | .ok r =>
        if r.status = 404 then
          .fail ("User \"" ++ username ++ "\" not found on BoardGameGeek") none none
        else if 400 ≤ r.status && r.status < 500 then
          .fail ("BGG API error: " ++ r.statusText ++ " (" ++ toString r.status ++ ")")
            none none
        else if isBggProcessing r.body then
          .fail "BGG API is still processing" (some true) (some 2)
        else
          match parseUserInfo r.body with
          | none => .fail ("User \"" ++ username ++ "\" not found on BoardGameGeek") none none
          | some u => .ok u

/-- `getUserCollection` (`bgg-api.ts:288-347`) after URL construction:
empty-username guard, fetch (no status check), processing check, then
`parseCollection`; the outer `catch` (lines 337-346) turns the fetcher's
escaping error into a failure result with `retryLater: true`. -/
def getUserCollection {α : Type} (mapItem : JsonVal → α)
    (fetchResult : Nat → Except String ResponseM) (username : String) :
    BggApiResult (List α) :=
  if strTrim username = "" then .fail "Username cannot be empty" none none
  else
    match (fetchWithRetry fetchResult).result with
    | .error e => .fail e (some true) none
    | .ok r =>
        if isBggProcessing r.body then
          .fail "BGG API is still processing" (some true) (some 2)
        else
          .ok (parseCollection mapItem r.body)

/-- The declared `GameInfo` link record (`bgg-api.ts:87-91`), with
runtime-possibly-`undefined` fields. -/
structure LinkM where
  type : Option JsonVal
  id : Option JsonVal
  value : Option JsonVal

/-- The declared `GameInfo.statistics.ratings` record (`bgg-api.ts:97-107`). -/
structure RatingsM where
  usersrated : Option JsonVal
  average : Option JsonVal
  bayesaverage : Option JsonVal
  stddev : Option JsonVal
  median : Option JsonVal
  ranks : Option JsonVal
  averageweight : Option JsonVal

/-- The declared `GameInfo.statistics` wrapper (`bgg-api.ts:97`). -/
structure StatisticsM where
  ratings : Option RatingsM

/-- The `GameInfo` record (`bgg-api.ts:72-108`) as it exists at runtime:
every leaf that can be absent or of irregular shape is an optional
`JsonVal`. -/
structure GameInfoM where
  objectid : Option JsonVal
  objecttype : Option JsonVal
  name : Option JsonVal
  sortindex : Option JsonVal
  description : Option JsonVal
  yearpublished : Option JsonVal
  image : Option JsonVal
  thumbnail : Option JsonVal
  minplayers : Option JsonVal
  maxplayers : Option JsonVal
  playtime : Option JsonVal
  minplaytime : Option JsonVal
  maxplaytime : Option JsonVal
  minage : Option JsonVal
  links : Option (List LinkM)
  statistics : Option StatisticsM

/-- Observable outcome of a `getGamesInfo` call: the returned result plus
the execution log — one entry per batch actually issued, paired with
whether the inter-batch `sleep(500)` ran after that batch. -/
structure GamesCallTrace where
  result : BggApiResult (List GameInfoM)
  log : List (List String × Bool)

/-- The batch slicing of `getGamesInfo` (`bgg-api.ts:372-373`): the
`for (let i = 0; i < gameIds.length; i += BATCH_SIZE)` loop takes
`slice(i, i + 20)` per step; the `Bool` is the pause condition
`i + BATCH_SIZE < gameIds.length` of line 485.  `fuel` bounds the
recursion and is initialized to the list length, which suffices because
every step drops 20 ≥ 1 elements. -/
def batchStepsAux : Nat → List String → List (List String × Bool)
  | 0, _ => []
  | _ + 1, [] => []
  | fuel + 1, ids => (ids.take 20, decide (20 < ids.length)) :: batchStepsAux fuel (ids.drop 20)

/-- The batches (with pause conditions) that `getGamesInfo` walks for a
given id list. -/
def batchSteps (ids : List String) : List (List String × Bool) :=
  batchStepsAux ids.length ids

/-- The body of the `getGamesInfo` batch loop (`bgg-api.ts:372-488`),
one recursive step per batch.  `fetchResult k` is the outcome of the
`fetchWithRetry` call for batch `k`; `itemMap` is the per-item `GameInfo`
construction of lines 414-480 (no claim depends on its fields).  A batch
whose parsed payload has no items hits the `continue` of line 407, which
skips the inter-batch `sleep` of lines 485-487; a processing body or a
thrown parse error returns out of the loop (the latter through the outer
`catch` of lines 494-501). -/
def gamesLoop (itemMap : JsonVal → GameInfoM)
    (fetchResult : Nat → Except String ResponseM) :
    List (List String × Bool) → Nat → List GameInfoM → GamesCallTrace
  | [], _, acc => ⟨.ok acc, []⟩
  | step :: rest, k, acc =>
      match fetchResult k with
      | .error e => ⟨.fail e (some true) none, [(step.1, false)]⟩
      | .ok r =>
          if isBggProcessing r.body then
            ⟨.fail "BGG API is still processing" (some true) (some 2), [(step.1, false)]⟩
          else
            match parseXmlToJson r.body with
            | .error e => ⟨.fail e (some true) none, [(step.1, false)]⟩
            | .ok json =>
                match jsOrO (jget json "item") (jgetO (jget json "items") "item") with
                | none =>
                    let t := gamesLoop itemMap fetchResult rest (k + 1) acc
                    ⟨t.result, (step.1, false) :: t.log⟩
                | some items =>
                    if !truthy items then
                      let t := gamesLoop itemMap fetchResult rest (k + 1) acc
                      ⟨t.result, (step.1, false) :: t.log⟩
                    else
                      let itemsArray := match items with | .arr l => l | v => [v]
                      let games := itemsArray.map itemMap
                      let t := gamesLoop itemMap fetchResult rest (k + 1) (acc ++ games)
                      ⟨t.result, (step.1, step.2) :: t.log⟩

/-- `getGamesInfo` (`bgg-api.ts:356-502`): the guard of lines 360-365
(`!gameIds || gameIds.length === 0`, with `none` modelling a missing
argument), then the sequential batch loop. -/
def getGamesInfo (itemMap : JsonVal → GameInfoM)
    (fetchResult : Nat → Except String ResponseM)
    (gameIds : Option (List String)) : GamesCallTrace :=
  match gameIds with
  | none => ⟨.fail "No game IDs provided" none none, []⟩
  | some ids =>
      if ids.isEmpty then ⟨.fail "No game IDs provided" none none, []⟩
      else gamesLoop itemMap fetchResult (batchSteps ids) 0 []

/-- A normalized rank field: `absent` is the `null` of
`game-mapper.ts`; `nan` is a `parseInt` result of `NaN`; `val n` is a
parsed number. -/
inductive RankVal where
  | absent
  | nan
  | val (n : Int)
deriving DecidableEq, Repr

/-- The rank-list normalization `Array.isArray(ranks) ? ranks : [ranks]`
(`game-mapper.ts:18-20` and `148-150`). -/
def ranksArrayOf : JsonVal → List JsonVal
  | .arr l => l
  | v => [v]

/-- The rank-entry predicate
`r.name === cat || r["@attributes"]?.name === cat`
(`game-mapper.ts:22-23` and `152-153`). -/
def rankMatches (cat : String) (r : JsonVal) : Bool :=
  jsEqO (jget r "name") (.str cat) || jsEqO (jgetO (jget r "@attributes") "name") (.str cat)

/-- The looked-up rank value
`found?.value || found?.["@attributes"]?.value`
(`game-mapper.ts:25-26` and `155-156`) for the first entry matching
`cat` in the (normalized) rank list. -/
def foundRankValue (ranks : JsonVal) (cat : String) : Option JsonVal :=
  let found := (ranksArrayOf ranks).find? (rankMatches cat)
  jsOrO (found.bind (fun r => jget r "value"))
    (found.bind (fun r => jgetO (jget r "@attributes") "value"))

/-- The sentinel-and-parse step applied to an already looked-up rank
value (`game-mapper.ts:28-33` and `158-163`):
`rankValue ? (rankValue === "Not Ranked" ? null : parseInt(String(rankValue), 10)) : null`. -/
def rankOfValue (rv : Option JsonVal) : RankVal :=
  if truthyO rv then
    if jsEqO rv (.str "Not Ranked") then .absent
    else
      match rv with
      | some v =>
          match parseIntOfVal v with
          | some n => .val n
          | none => .nan
      | none => .absent
  else .absent

/-- The complete rank extraction for one category from a rank list. -/
def rankOfRanks (ranks : JsonVal) (cat : String) : RankVal :=
  rankOfValue (foundRankValue ranks cat)

/-- The status-flag coercion `v === 1 || v === "1"`
(`game-mapper.ts:60-67`). -/
def statusFlag (v : Option JsonVal) : Bool :=
  jsEqO v (.num ⟨1, 0⟩) || jsEqO v (.str "1")

/-- The `CollectionGame.stats.rating` record (`bgg-api.ts:48-56`) at
runtime. -/
structure CollRatingM where
  value : Option JsonVal
  usersrated : Option JsonVal
  average : Option JsonVal
  bayesaverage : Option JsonVal
  stddev : Option JsonVal
  median : Option JsonVal
  ranks : Option JsonVal

/-- The `CollectionGame.stats` record (`bgg-api.ts:41-57`) at runtime. -/
structure CollStatsM where
  minplayers : Option JsonVal
  maxplayers : Option JsonVal
  minplaytime : Option JsonVal
  maxplaytime : Option JsonVal
  playingtime : Option JsonVal
  numowned : Option JsonVal
  rating : Option CollRatingM

/-- The `CollectionGame.status` record (`bgg-api.ts:58-68`) at runtime. -/
structure CollStatusM where
  own : Option JsonVal
  prevowned : Option JsonVal
  fortrade : Option JsonVal
  want : Option JsonVal
  wanttoplay : Option JsonVal
  wanttobuy : Option JsonVal
  wishlist : Option JsonVal
  preordered : Option JsonVal
  lastmodified : Option JsonVal

/-- The `CollectionGame` record (`bgg-api.ts:32-70`) as produced at
runtime by `parseCollection`. -/
structure CollectionGameM where
  objectid : Option JsonVal
  objecttype : Option JsonVal
  subtype : Option JsonVal
  collid : Option JsonVal
  name : Option JsonVal
  yearpublished : Option JsonVal
  image : Option JsonVal
  thumbnail : Option JsonVal
  stats : Option CollStatsM
  status : Option CollStatusM
  numplays : Option JsonVal

/-- `Game.players` / `Game.playtime` ranges (`types/game.ts`); the
values are `parseInt` results, so `none` models `NaN`. -/
structure RangeM where
  min : Option Int
  max : Option Int
deriving DecidableEq, Repr

/-- `Game.rating` (`types/game.ts`): `parseFloat`/`parseInt` results
plus the two extracted ranks. -/
structure GameRatingM where
  average : Option JsNum
  bayesAverage : Option JsNum
  usersRated : Option Int
  rank : RankVal
  strategyRank : RankVal
deriving DecidableEq, Repr

/-- `Game.status` (`types/game.ts`). -/
structure GameStatusM where
  owned : Bool
  previouslyOwned : Bool
  forTrade : Bool
  want : Bool
  wantToPlay : Bool
  wantToBuy : Bool
  wishlist : Bool
  preordered : Bool
  lastModified : JsonVal

/-- The canonical `Game` entity (`types/game.ts`) with the runtime value
shapes the mappers actually produce: `id`/`collectionId` may be any JS
value (`gameInfoToGame` assigns `objectid` unconverted), optional detail
fields are `Option`, `weight`'s outer `Option` is `undefined` and its
inner one a `NaN` `parseFloat` result, and `lastPlayed` is a millisecond
timestamp. -/
structure GameM where
  id : Option JsonVal
  collectionId : Option JsonVal
  name : JsonVal
  yearPublished : JsonVal
  image : JsonVal
  thumbnail : JsonVal
  players : RangeM
  playtime : RangeM
  numOwned : Option Int
  rating : GameRatingM
  status : GameStatusM
  numPlays : Option JsNum
  description : Option JsonVal
  weight : Option (Option JsNum)
  categories : Option (List (Option JsonVal))
  mechanics : Option (List (Option JsonVal))
  designers : Option (List (Option JsonVal))
  userRating : Option JsonVal
  lastPlayed : Option Int

/-- The optional chain `bggGame.stats?.rating?.ranks`
(`game-mapper.ts:17`). -/
def collRanks (bggGame : CollectionGameM) : Option JsonVal :=
  (bggGame.stats.bind (fun s => s.rating)).bind (fun r => r.ranks)

/-- `collectionGameToGame` (`game-mapper.ts:12-72`). -/
def collectionGameToGame (bggGame : CollectionGameM) : GameM :=
  let ranksOpt := collRanks bggGame
  let rank := if truthyO ranksOpt then rankOfRanks (ranksOpt.getD (.num ⟨0, 0⟩)) "boardgame"
    else .absent
  let strategyRank := if truthyO ranksOpt then
      rankOfRanks (ranksOpt.getD (.num ⟨0, 0⟩)) "strategygames"
    else .absent
  { id := some (.str (jsToStringO bggGame.objectid)),
    collectionId := some (.str (jsToStringO bggGame.collid)),
    name := jsOrVal bggGame.name (.str ""),
    yearPublished := jsOrVal bggGame.yearpublished (.num ⟨0, 0⟩),
    image := jsOrVal bggGame.image (.str ""),
    thumbnail := jsOrVal bggGame.thumbnail (.str ""),
    players :=
      ⟨parseIntOfVal (jsOrVal (bggGame.stats.bind (fun s => s.minplayers)) (.num ⟨0, 0⟩)),
        parseIntOfVal (jsOrVal (bggGame.stats.bind (fun s => s.maxplayers)) (.num ⟨0, 0⟩))⟩,
    playtime :=
      ⟨parseIntOfVal (jsOrVal (bggGame.stats.bind (fun s => s.minplaytime)) (.num ⟨0, 0⟩)),
        parseIntOfVal (jsOrVal (bggGame.stats.bind (fun s => s.maxplaytime)) (.num ⟨0, 0⟩))⟩,
    numOwned := parseIntOfVal (jsOrVal (bggGame.stats.bind (fun s => s.numowned)) (.num ⟨0, 0⟩)),
    rating :=
      { average := parseFloatOfVal (jsOrVal
          ((bggGame.stats.bind (fun s => s.rating)).bind (fun r => r.average)) (.num ⟨0, 0⟩)),
        bayesAverage := parseFloatOfVal (jsOrVal
          ((bggGame.stats.bind (fun s => s.rating)).bind (fun r => r.bayesaverage)) (.num ⟨0, 0⟩)),
        usersRated := parseIntOfVal (jsOrVal
          ((bggGame.stats.bind (fun s => s.rating)).bind (fun r => r.usersrated)) (.num ⟨0, 0⟩)),
        rank := rank,
        strategyRank := strategyRank },
    status :=
      { owned := statusFlag (bggGame.status.bind (fun s => s.own)),
        previouslyOwned := statusFlag (bggGame.status.bind (fun s => s.prevowned)),
        forTrade := statusFlag (bggGame.status.bind (fun s => s.fortrade)),
        want := statusFlag (bggGame.status.bind (fun s => s.want)),
        wantToPlay := statusFlag (bggGame.status.bind (fun s => s.wanttoplay)),
        wantToBuy := statusFlag (bggGame.status.bind (fun s => s.wanttobuy)),
        wishlist := statusFlag (bggGame.status.bind (fun s => s.wishlist)),
        preordered := statusFlag (bggGame.status.bind (fun s => s.preordered)),
        lastModified := jsOrVal (bggGame.status.bind (fun s => s.lastmodified)) (.str "") },
    numPlays :=
      match bggGame.numplays with
      | some (.num q) => some q
      | v => (parseIntOfVal (jsOrVal v (.str "0"))).map jsnInt,
    description := none,
    weight := none,
    categories := none,
    mechanics := none,
    designers := none,
    userRating := none,
    lastPlayed := none }

/-- The link projection `links?.filter(l => l.type === t).map(l => l.value)`
(`game-mapper.ts:80-92` and `167-179`). -/
def linksOfType (links : Option (List LinkM)) (t : String) : Option (List (Option JsonVal)) :=
  links.map (fun ls => (ls.filter (fun l => jsEqO l.type (.str t))).map (fun l => l.value))

/-- The weight extraction
`statistics?.ratings?.averageweight ? parseFloat(averageweight.toString()) : undefined`
(`game-mapper.ts:95-97` and `182-184`). -/
def weightOf (gi : GameInfoM) : Option (Option JsNum) :=
  let awt := (gi.statistics.bind (fun s => s.ratings)).bind (fun r => r.averageweight)
  if truthyO awt then some (parseFloatOfVal (awt.getD (.num ⟨0, 0⟩))) else none

/-- `mergeGameInfo` (`game-mapper.ts:78-107`): spread of the base game
followed by unconditional assignment of the five overlay fields. -/
def mergeGameInfo (game : GameM) (gameInfo : GameInfoM) : GameM :=
  { game with
    description := gameInfo.description,
    weight := weightOf gameInfo,
    categories := linksOfType gameInfo.links "boardgamecategory",
    mechanics := linksOfType gameInfo.links "boardgamemechanic",
    designers := linksOfType gameInfo.links "boardgamedesigner" }

/-- The optional chain `gameInfo.statistics?.ratings?.ranks`
(`game-mapper.ts:147`). -/
def infoRanks (gameInfo : GameInfoM) : Option JsonVal :=
  (gameInfo.statistics.bind (fun s => s.ratings)).bind (fun r => r.ranks)

/-- `gameInfoToGame` (`game-mapper.ts:142-227`). -/
def gameInfoToGame (gameInfo : GameInfoM) : GameM :=
  let ranksOpt := infoRanks gameInfo
  let rank := if truthyO ranksOpt then rankOfRanks (ranksOpt.getD (.num ⟨0, 0⟩)) "boardgame"
    else .absent
  let strategyRank := if truthyO ranksOpt then
      rankOfRanks (ranksOpt.getD (.num ⟨0, 0⟩)) "strategygames"
    else .absent
  { id := gameInfo.objectid,
    collectionId := gameInfo.objectid,
    name := jsOrVal gameInfo.name (.str ""),
    yearPublished := jsOrVal gameInfo.yearpublished (.num ⟨0, 0⟩),
    image := jsOrVal gameInfo.image (.str ""),
    thumbnail := jsOrVal gameInfo.thumbnail (.str ""),
    players :=
      ⟨parseIntOfVal (jsOrVal gameInfo.minplayers (.num ⟨0, 0⟩)),
        parseIntOfVal (jsOrVal gameInfo.maxplayers (.num ⟨0, 0⟩))⟩,
    playtime :=
      ⟨parseIntOfVal (jsOrVal gameInfo.minplaytime (.num ⟨0, 0⟩)),
        parseIntOfVal (jsOrVal gameInfo.maxplaytime (.num ⟨0, 0⟩))⟩,
    numOwned := parseIntOfVal (jsOrVal
      ((gameInfo.statistics.bind (fun s => s.ratings)).bind (fun r => r.usersrated))
      (.num ⟨0, 0⟩)),
    rating :=
      { average := parseFloatOfVal (jsOrVal
          ((gameInfo.statistics.bind (fun s => s.ratings)).bind (fun r => r.average))
          (.num ⟨0, 0⟩)),
        bayesAverage := parseFloatOfVal (jsOrVal
          ((gameInfo.statistics.bind (fun s => s.ratings)).bind (fun r => r.bayesaverage))
          (.num ⟨0, 0⟩)),
        usersRated := parseIntOfVal (jsOrVal
          ((gameInfo.statistics.bind (fun s => s.ratings)).bind (fun r => r.usersrated))
          (.num ⟨0, 0⟩)),
        rank := rank,
        strategyRank := strategyRank },
    status :=
      { owned := false, previouslyOwned := false, forTrade := false, want := false,
        wantToPlay := false, wantToBuy := false, wishlist := false, preordered := false,
        lastModified := .str "" },
    numPlays := some ⟨0, 0⟩,
    description := gameInfo.description,
    weight := weightOf gameInfo,
    categories := linksOfType gameInfo.links "boardgamecategory",
    mechanics := linksOfType gameInfo.links "boardgamemechanic",
    designers := linksOfType gameInfo.links "boardgamedesigner",
    userRating := none,
    lastPlayed := none }

/-- A play record as consumed by the `GameDetail` aggregation: the
`quantity` field and the play date as a millisecond timestamp
(`new Date(0)` is `0`). -/
structure PlayM where
  quantity : JsNum
  date : Int
deriving DecidableEq, Repr

/-- The plays merge inlined in `GameDetail` (`GameDetail.tsx`, the
`useMemo` at lines 20-42): `undefined` or empty plays return the base
game unchanged; otherwise total plays is
`plays.reduce((sum, play) => sum + play.quantity, 0)`, the most recent
play is `plays.reduce((latest, play) => play.date > latest ? play.date : latest, new Date(0))`,
and `lastPlayed` is set only when that timestamp is positive. -/
def mergePlays (baseGame : GameM) (plays : Option (List PlayM)) : GameM :=
  match plays with
  | none => baseGame
  | some ps =>
      if ps.isEmpty then baseGame
      else
        let totalPlays := ps.foldl (fun sum p => jsnAdd sum p.quantity) ⟨0, 0⟩
        let mostRecentPlay := ps.foldl (fun latest p => if p.date > latest then p.date else latest)
          0
        { baseGame with
          numPlays := some totalPlays,
          lastPlayed := if mostRecentPlay > 0 then some mostRecentPlay else none }

/-- Observable outcome of `pickWeightedRandomGame`: the returned game or
thrown error, and how many times `Math.random()` was called. -/
structure PickOutcome where
  result : Except String GameM
  randomCalls : Nat

/-- The cumulative-weight walk of `pickWeightedRandomGame`
(`xml-parser.ts` weighted-selector lines 343-349): return the first game
whose cumulative weight reaches the draw, with `games[0]` as the
floating-point fallback. -/
def pickWalk (fallback : GameM) (random : JsNum) :
    List (GameM × JsNum) → JsNum → GameM
  | [], _ => fallback
  | (g, w) :: rest, cum =>
      let c := jsnAdd cum w
      if jsnLe random c then g else pickWalk fallback random rest c

/-- `pickWeightedRandomGame` (weighted selector, lines 320-353): throws
on an empty list; returns the single element of a singleton without
consuming randomness; otherwise weights `0.85^index`, draws
`rand * totalWeight` (with `rand` the `Math.random()` result in
`[0, 1)`), and walks the cumulative weights. -/
def pickWeightedRandomGame : List GameM → JsNum → PickOutcome
  | [], _ => ⟨.error "Cannot pick from empty game list", 0⟩
  | [g], _ => ⟨.ok g, 0⟩
  | g :: g2 :: gs, rand =>
      let games := g :: g2 :: gs
      let weights := games.enum.map (fun p => (p.2, jsnPow ⟨85, 2⟩ p.1))
      let totalWeight := weights.foldl (fun sum w => jsnAdd sum w.2) ⟨0, 0⟩
      let random := jsnMul rand totalWeight
      ⟨.ok (pickWalk g random weights ⟨0, 0⟩), 1⟩

/-- A `GameInfo` with every field absent (a detail payload carrying no
overlay data). -/
def emptyGameInfo : GameInfoM :=
  { objectid := none, objecttype := none, name := none, sortindex := none,
    description := none, yearpublished := none, image := none, thumbnail := none,
    minplayers := none, maxplayers := none, playtime := none, minplaytime := none,
    maxplaytime := none, minage := none, links := none, statistics := none }

/-- A rank list whose `boardgame` and `strategygames` entries both carry
the literal `"Not Ranked"` sentinel. -/
def nrRanks : JsonVal :=
  .arr [.obj [("name", .str "boardgame"), ("value", .str "Not Ranked")],
    .obj [("name", .str "strategygames"), ("value", .str "Not Ranked")]]

/-- Collection stats for the concrete fixture game. -/
def cgStats : CollStatsM :=
  { minplayers := some (.num ⟨1, 0⟩), maxplayers := some (.num ⟨4, 0⟩),
    minplaytime := some (.num ⟨60, 0⟩), maxplaytime := some (.num ⟨120, 0⟩),
    playingtime := some (.num ⟨120, 0⟩), numowned := some (.num ⟨70000, 0⟩),
    rating := some
      { value := some (.num ⟨9, 0⟩), usersrated := some (.num ⟨60000, 0⟩),
        average := some (.num ⟨87, 1⟩), bayesaverage := some (.num ⟨85, 1⟩),
        stddev := none, median := none, ranks := some nrRanks } }

/-- Collection status for the concrete fixture game. -/
def cgStatus : CollStatusM :=
  { own := some (.num ⟨1, 0⟩), prevowned := some (.num ⟨0, 0⟩),
    fortrade := some (.str "0"), want := some (.str "1"), wanttoplay := none,
    wanttobuy := none, wishlist := none, preordered := none,
    lastmodified := some (.str "2024-01-01") }

/-- A concrete collection entry whose rank entries read `"Not Ranked"`. -/
def cgNR : CollectionGameM :=
  { objectid := some (.num ⟨174430, 0⟩), objecttype := some (.str "thing"),
    subtype := some (.str "boardgame"), collid := some (.num ⟨99, 0⟩),
    name := some (.str "Gloomhaven"), yearpublished := some (.num ⟨2017, 0⟩),
    image := none, thumbnail := none,
    stats := some cgStats,
    status := some cgStatus,
    numplays := some (.num ⟨17, 0⟩) }

/-- A concrete detail record whose rank entries read `"Not Ranked"`. -/
def giNR : GameInfoM :=
  { emptyGameInfo with
    objectid := some (.num ⟨174430, 0⟩),
    name := some (.str "Gloomhaven"),
    statistics := some
      { ratings := some
          { usersrated := some (.num ⟨60000, 0⟩), average := some (.num ⟨87, 1⟩),
            bayesaverage := some (.num ⟨85, 1⟩), stddev := none, median := none,
            ranks := some nrRanks, averageweight := some (.num ⟨39, 1⟩) } } }

/-- A concrete base `Game` carrying detail overlay data, for the merge
theorems. -/
def sampleGame : GameM :=
  { (collectionGameToGame cgNR) with
    description := some (.str "x"),
    weight := some (some ⟨35, 1⟩),
    categories := some [some (.str "c")] }

/-- A response source that always reports HTTP 202. -/
def always202 : Nat → Except String ResponseM :=
  constFetch (mkResp 202 "Accepted" (.wellFormed (.elem "message" [] .nil "processing")))

/-- Claim C2 (counterexample): with the default configuration and an
always-202 source the fetcher sleeps 2000+4000+8000+16000 = 30000 ms —
it never sleeps after the fifth (final) attempt — which differs from the
claimed I·(2^ceiling − 1) = 62000 ms. -/
theorem C2_counterexample :
    (fetchWithRetry always202).totalSleep = 30000 ∧
    ¬ ((fetchWithRetry always202).totalSleep
        = INITIAL_RETRY_DELAY * (2 ^ MAX_RETRIES - 1)) :=
  ⟨by decide, by decide⟩

/-- Claim C2 (amended): with the default configuration (ceiling 5,
initial interval 2000 ms, doubling after each retry) and an always-202
source, the fetcher issues exactly the ceiling of 5 fetch attempts,
never more, fails with the processing-timeout error, and the total time
slept is I·(2^(ceiling−1) − 1) = 30000 ms — the delay doubles after each
of the 4 sleeps that separate the 5 attempts, and no sleep follows the
final attempt. -/
theorem C2_amended :
    (fetchWithRetry always202).fetchCalls = MAX_RETRIES ∧
    (fetchWithRetry always202).totalSleep
      = INITIAL_RETRY_DELAY * (2 ^ (MAX_RETRIES - 1) - 1) ∧
    (fetchWithRetry always202).result
      = .error "BGG API is still processing the request after maximum retries" :=
  ⟨by decide, by decide, rfl⟩

/-- Claim C9: the weighted selector throws on an empty list (it never
returns a game there), and returns the single element of a singleton
list without consuming any randomness. -/
theorem C9_theorem :
    (∀ r, pickWeightedRandomGame [] r
        = ⟨.error "Cannot pick from empty game list", 0⟩) ∧
    (∀ g r, pickWeightedRandomGame [g] r = ⟨.ok g, 0⟩) :=
  ⟨fun _ => rfl, fun _ _ => rfl⟩

/-- Claim C10: the batch detail operation with a missing or empty id
list returns `{success:false, error:"No game IDs provided"}` without
issuing any request (the log is empty), and in particular never returns
a success with an empty data list for such input. -/
theorem C10_theorem :
    ∀ (itemMap : JsonVal → GameInfoM) (fetchResult : Nat → Except String ResponseM),
      getGamesInfo itemMap fetchResult none
          = ⟨.fail "No game IDs provided" none none, []⟩ ∧
      getGamesInfo itemMap fetchResult (some [])
          = ⟨.fail "No game IDs provided" none none, []⟩ ∧
      (getGamesInfo itemMap fetchResult (some [])).result ≠ .ok [] :=
  fun _ _ => ⟨rfl, rfl, fun h => nomatch h⟩

/-- The C3 collision document `<a b="1"><b>2</b></a>`. -/
def c3doc : Xml := .elem "a" [("b", "1")] (xmlKidsOf [.elem "b" [] .nil "2"]) ""

/-- Claim C3 (counterexample): converting `<a b="1"><b>2</b></a>` yields
`{ b: [1, 2] }` — the attribute value is promoted to an array and the
child value appended — not the child-only `{ b: 2 }` the claim's
last-write-wins rule would give. -/
theorem C3_counterexample :
    xmlElementToJson c3doc = .obj [("b", .arr [.num ⟨1, 0⟩, .num ⟨2, 0⟩])] ∧
    xmlElementToJson c3doc ≠ .obj [("b", .num ⟨2, 0⟩)] := by
  have hval : xmlElementToJson c3doc = .obj [("b", .arr [.num ⟨1, 0⟩, .num ⟨2, 0⟩])] := rfl
  refine ⟨hval, ?_⟩
  rw [hval]
  intro h
  simp at h

/-- Every `parseValue` result is a scalar. -/
theorem parseValue_shape (s : String) :
    (∃ t, parseValue s = .str t) ∨ ∃ q, parseValue s = .num q := by
  unfold parseValue
  by_cases h : isNumericShape s = true
  · exact Or.inr ⟨_, by rw [if_pos h]⟩
  · exact Or.inl ⟨_, by rw [if_neg h]⟩

/-- Adding a child under a key that currently holds a string promotes
the string to a two-element array. -/
theorem addChild_single_str (n s : String) (X : JsonVal) :
    addChild [(n, .str s)] n X = [(n, .arr [.str s, X])] := by
  simp [addChild, List.lookup, setKey]

/-- Adding a child under a key that currently holds a number promotes
the number to a two-element array. -/
theorem addChild_single_num (n : String) (q : JsNum) (X : JsonVal) :
    addChild [(n, .num q)] n X = [(n, .arr [.num q, X])] := by
  simp [addChild, List.lookup, setKey]

/-- Claim C3 (amended): attribute names and child-element tag names do
share one namespace per node, but on a collision the attribute's value
is promoted to a sequence and the child's converted value appended: the
resulting mapping holds `[attributeValue, childValue]` under that name —
both values in document order — not the child value alone. -/
theorem C3_amended :
    ∀ (t n v : String) (ca : List (String × String)) (cc : XmlKids) (ct txt : String),
      xmlElementToJson (.elem t [(n, v)] (.cons (.elem n ca cc ct) .nil) txt)
        = .obj [(n, .arr [parseValue v, xmlElementToJson (.elem n ca cc ct)])] := by
  intro t n v ca cc ct txt
  show JsonVal.obj (addChild [(n, parseValue v)] n (xmlElementToJson (Xml.elem n ca cc ct)))
      = JsonVal.obj [(n, JsonVal.arr [parseValue v, xmlElementToJson (Xml.elem n ca cc ct)])]
  rcases parseValue_shape v with ⟨s, hs⟩ | ⟨q, hq⟩
  · rw [hs, addChild_single_str]
  · rw [hq, addChild_single_num]

/-- The C4 failing payload: a user document that carries neither an id,
nor a name, nor any error marker. -/
def c4payload : XmlDoc := .wellFormed (.elem "user" [("someattr", "5")] .nil "")

/-- Claim C4 (code evaluated at the failing input): on a payload with no
id and no name (and no error marker), `parseUserInfo` does not return
the not-found `null` — it returns a user record whose `id` and `name`
are both `undefined`, in breach of its own declared return type
`{ id: string; name: string; … } | null` — and `validateUsername` then
reports success with that record. -/
theorem C4_theorem :
    parseUserInfo c4payload = some ⟨none, none, none, none⟩ ∧
    validateUsername (constFetch (mkResp 200 "OK" c4payload)) "ghost"
      = .ok ⟨none, none, none, none⟩ :=
  ⟨rfl, rfl⟩

/-- Claim C5 (counterexample): a detail payload with no description (and
no weight) does not leave the base game's fields untouched —
`mergeGameInfo` overwrites them with `undefined`. -/
theorem C5_counterexample :
    sampleGame.description = some (.str "x") ∧
    emptyGameInfo.description = none ∧
    (mergeGameInfo sampleGame emptyGameInfo).description = none ∧
    ¬ ((mergeGameInfo sampleGame emptyGameInfo).description = sampleGame.description) ∧
    sampleGame.weight = some (some ⟨35, 1⟩) ∧
    (mergeGameInfo sampleGame emptyGameInfo).weight = none := by
  have h1 : (mergeGameInfo sampleGame emptyGameInfo).description = none := rfl
  have h2 : sampleGame.description = some (.str "x") := rfl
  refine ⟨h2, rfl, h1, ?_, rfl, rfl⟩
  rw [h1, h2]
  exact fun h => Option.noConfusion h

/-- Claim C5 (amended): `mergeGameInfo` always overwrites the five
overlay fields — description, complexity weight, and the
category/mechanic/designer lists filtered from the flat link list by the
type discriminant — with the detail payload's projections, setting them
to absent when the payload lacks them; every other `Game` field is left
unchanged. -/
theorem C5_amended :
    ∀ (g : GameM) (gi : GameInfoM),
      (mergeGameInfo g gi).description = gi.description ∧
      (mergeGameInfo g gi).weight = weightOf gi ∧
      (mergeGameInfo g gi).categories = linksOfType gi.links "boardgamecategory" ∧
      (mergeGameInfo g gi).mechanics = linksOfType gi.links "boardgamemechanic" ∧
      (mergeGameInfo g gi).designers = linksOfType gi.links "boardgamedesigner" ∧
      (mergeGameInfo g gi).id = g.id ∧
      (mergeGameInfo g gi).collectionId = g.collectionId ∧
      (mergeGameInfo g gi).name = g.name ∧
      (mergeGameInfo g gi).yearPublished = g.yearPublished ∧
      (mergeGameInfo g gi).image = g.image ∧
      (mergeGameInfo g gi).thumbnail = g.thumbnail ∧
      (mergeGameInfo g gi).players = g.players ∧
      (mergeGameInfo g gi).playtime = g.playtime ∧
      (mergeGameInfo g gi).numOwned = g.numOwned ∧
      (mergeGameInfo g gi).rating = g.rating ∧
      (mergeGameInfo g gi).status = g.status ∧
      (mergeGameInfo g gi).numPlays = g.numPlays ∧
      (mergeGameInfo g gi).userRating = g.userRating ∧
      (mergeGameInfo g gi).lastPlayed = g.lastPlayed :=
  fun _ _ =>
    ⟨rfl, rfl, rfl, rfl, rfl, rfl, rfl, rfl, rfl, rfl, rfl, rfl, rfl, rfl, rfl, rfl,
      rfl, rfl, rfl⟩

/-- The `"Not Ranked"` sentinel maps to the absent rank. -/
theorem rankOfValue_notRanked : rankOfValue (some (.str "Not Ranked")) = .absent := rfl

/-- Claim C6: in both normalizers the rank field is a function of the
value looked up from the rank list (the sentinel check happens after the
lookup), and whenever that looked-up value is the literal text
`"Not Ranked"` the rank normalizes to the absent value, which is
distinct from `0` and from `NaN`. -/
theorem C6_theorem :
    (∀ (bg : CollectionGameM) (r : JsonVal),
        collRanks bg = some r → truthy r = true →
        (collectionGameToGame bg).rating.rank = rankOfValue (foundRankValue r "boardgame") ∧
        (collectionGameToGame bg).rating.strategyRank
          = rankOfValue (foundRankValue r "strategygames") ∧
        (foundRankValue r "boardgame" = some (.str "Not Ranked") →
          (collectionGameToGame bg).rating.rank = .absent) ∧
        (foundRankValue r "strategygames" = some (.str "Not Ranked") →
          (collectionGameToGame bg).rating.strategyRank = .absent)) ∧
    (∀ (gi : GameInfoM) (r : JsonVal),
        infoRanks gi = some r → truthy r = true →
        (gameInfoToGame gi).rating.rank = rankOfValue (foundRankValue r "boardgame") ∧
        (gameInfoToGame gi).rating.strategyRank
          = rankOfValue (foundRankValue r "strategygames") ∧
        (foundRankValue r "boardgame" = some (.str "Not Ranked") →
          (gameInfoToGame gi).rating.rank = .absent) ∧
        (foundRankValue r "strategygames" = some (.str "Not Ranked") →
          (gameInfoToGame gi).rating.strategyRank = .absent)) ∧
    RankVal.absent ≠ RankVal.val 0 ∧ RankVal.absent ≠ RankVal.nan := by
  refine ⟨?_, ?_, by decide, by decide⟩
  · intro bg r h1 h2
    have hrank : (collectionGameToGame bg).rating.rank
        = rankOfValue (foundRankValue r "boardgame") := by
      simp [collectionGameToGame, h1, truthyO, h2, rankOfRanks]
    have hstrat : (collectionGameToGame bg).rating.strategyRank
        = rankOfValue (foundRankValue r "strategygames") := by
      simp [collectionGameToGame, h1, truthyO, h2, rankOfRanks]
    refine ⟨hrank, hstrat, ?_, ?_⟩
    · intro hf; rw [hrank, hf, rankOfValue_notRanked]
    · intro hf; rw [hstrat, hf, rankOfValue_notRanked]
  · intro gi r h1 h2
    have hrank : (gameInfoToGame gi).rating.rank
        = rankOfValue (foundRankValue r "boardgame") := by
      simp [gameInfoToGame, h1, truthyO, h2, rankOfRanks]
    have hstrat : (gameInfoToGame gi).rating.strategyRank
        = rankOfValue (foundRankValue r "strategygames") := by
      simp [gameInfoToGame, h1, truthyO, h2, rankOfRanks]
    refine ⟨hrank, hstrat, ?_, ?_⟩
    · intro hf; rw [hrank, hf, rankOfValue_notRanked]
    · intro hf; rw [hstrat, hf, rankOfValue_notRanked]

/-- Claim C6 (witness): the concrete fixtures with `"Not Ranked"` rank
entries normalize to absent ranks through both mappers. -/
theorem C6_witness :
    (collectionGameToGame cgNR).rating.rank = .absent ∧
    (collectionGameToGame cgNR).rating.strategyRank = .absent ∧
    (gameInfoToGame giNR).rating.rank = .absent ∧
    (gameInfoToGame giNR).rating.strategyRank = .absent := by
  have h1 := C6_theorem.1 cgNR nrRanks rfl rfl
  have h2 := C6_theorem.2.1 giNR nrRanks rfl rfl
  exact ⟨h1.2.2.1 rfl, h1.2.2.2 rfl, h2.2.2.1 rfl, h2.2.2.2 rfl⟩

/-- The most-recent-play fold of the `GameDetail` aggregation, seeded
with `new Date(0)`. -/
def maxDate (ps : List PlayM) : Int :=
  ps.foldl (fun latest p => if p.date > latest then p.date else latest) 0

/-- Value of a JS addition. -/
theorem jsnVal_add (a b : JsNum) : jsnVal (jsnAdd a b) = jsnVal a + jsnVal b := by
  unfold jsnVal jsnAdd
  have ha : ((10 : ℚ) ^ a.e) ≠ 0 := by positivity
  have hb : ((10 : ℚ) ^ b.e) ≠ 0 := by positivity
  rw [div_add_div _ _ ha hb, pow_add]
  push_cast
  ring_nf

/-- Value of the quantity-summing fold of the plays merge. -/
theorem foldl_jsnAdd_val (ps : List PlayM) : ∀ (init : JsNum),
    jsnVal (ps.foldl (fun sum p => jsnAdd sum p.quantity) init)
      = jsnVal init + (ps.map (fun p => jsnVal p.quantity)).sum := by
  induction ps with
  | nil => intro init; simp
  | cons p t ih =>
      intro init
      simp only [List.foldl_cons, List.map_cons, List.sum_cons, ih, jsnVal_add]
      ring

/-- The date fold never drops below its seed. -/
theorem maxDate_fold_le_init (ps : List PlayM) : ∀ (a : Int),
    a ≤ ps.foldl (fun latest p => if p.date > latest then p.date else latest) a := by
  induction ps with
  | nil => intro a; simp
  | cons p t ih =>
      intro a
      refine le_trans ?_ (ih _)
      dsimp only [List.foldl_cons]
      split <;> omega

/-- The date fold bounds every member's date. -/
theorem maxDate_fold_mem_le (ps : List PlayM) : ∀ (a : Int), ∀ p ∈ ps,
    p.date ≤ ps.foldl (fun latest q => if q.date > latest then q.date else latest) a := by
  induction ps with
  | nil => intro a p hp; cases hp
  | cons q t ih =>
      intro a p hp
      cases hp with
      | head =>
          refine le_trans ?_ (maxDate_fold_le_init t _)
          dsimp only
          split <;> omega
      | tail _ hmem => exact ih _ p hmem

/-- The date fold returns its seed or some member's date. -/
theorem maxDate_fold_eq (ps : List PlayM) : ∀ (a : Int),
    ps.foldl (fun latest q => if q.date > latest then q.date else latest) a = a
      ∨ ∃ p ∈ ps, ps.foldl (fun latest q => if q.date > latest then q.date else latest) a
          = p.date := by
  induction ps with
  | nil => intro a; exact Or.inl rfl
  | cons q t ih =>
      intro a
      simp only [List.foldl_cons]
      by_cases hc : q.date > a
      · rw [if_pos hc]
        rcases ih q.date with h | ⟨p, hp, he⟩
        · exact Or.inr ⟨q, List.mem_cons_self q t, h⟩
        · exact Or.inr ⟨p, List.mem_cons_of_mem q hp, he⟩
      · rw [if_neg hc]
        rcases ih a with h | ⟨p, hp, he⟩
        · exact Or.inl h
        · exact Or.inr ⟨p, List.mem_cons_of_mem q hp, he⟩

/-- Claim C8 (amended): for a nonempty list of matching play records the
merge sets the total play count to the sum of the records' quantity
fields, and sets last-played to the maximum play date among the records
whenever that maximum is after the Unix epoch (a positive timestamp) —
when every matching play is dated at or before the epoch, last-played is
absent; a game with no matching plays (or a missing list) is returned
unchanged, keeping its play count and having no last-played date beyond
what it already had. -/
theorem C8_amended (g : GameM) (ps : List PlayM) (h : ps ≠ []) :
    ((mergePlays g (some ps)).numPlays.map jsnVal)
        = some ((ps.map (fun p => jsnVal p.quantity)).sum) ∧
    (mergePlays g (some ps)).lastPlayed
        = (if 0 < maxDate ps then some (maxDate ps) else none) ∧
    (∀ p ∈ ps, p.date ≤ maxDate ps) ∧
    (0 < maxDate ps → ∃ p ∈ ps, maxDate ps = p.date) ∧
    mergePlays g none = g ∧ mergePlays g (some []) = g := by
  obtain ⟨q, t, rfl⟩ : ∃ q t, ps = q :: t := by
    cases ps with
    | nil => exact absurd rfl h
    | cons q t => exact ⟨q, t, rfl⟩
  refine ⟨?_, rfl, ?_, ?_, rfl, rfl⟩
  · have hv : ((mergePlays g (some (q :: t))).numPlays.map jsnVal)
        = some (jsnVal ((q :: t).foldl (fun sum p => jsnAdd sum p.quantity) ⟨0, 0⟩)) := rfl
    rw [hv, foldl_jsnAdd_val]
    norm_num [jsnVal]
  · intro p hp
    exact maxDate_fold_mem_le (q :: t) 0 p hp
  · intro hpos
    rcases maxDate_fold_eq (q :: t) 0 with he | ⟨p, hp, he⟩
    · exfalso
      rw [maxDate, he] at hpos
      omega
    · exact ⟨p, hp, by rw [maxDate, he]⟩

/-- The play records of the spec's worked example: quantities 2, 1, 3 on
strictly increasing (positive) dates. -/
def c8plays : List PlayM := [⟨⟨2, 0⟩, 1⟩, ⟨⟨1, 0⟩, 2⟩, ⟨⟨3, 0⟩, 3⟩]

/-- Claim C8 (witness): quantities [2, 1, 3] on dates 1 < 2 < 3 merge to
play count 6 and last-played 3. -/
theorem C8_witness :
    ((mergePlays sampleGame (some c8plays)).numPlays.map jsnVal) = some 6 ∧
    (mergePlays sampleGame (some c8plays)).lastPlayed = some 3 := by
  have h := C8_amended sampleGame c8plays (by decide)
  refine ⟨h.1.trans ?_, h.2.1.trans ?_⟩
  · norm_num [c8plays, jsnVal]
  · decide

/-- The C8 counterexample play list: a single play dated exactly at the
Unix epoch. -/
def c8epoch : List PlayM := [⟨⟨1, 0⟩, 0⟩]

/-- Claim C8 (counterexample): a play record dated at the Unix epoch has
maximum play date 0, but the merge leaves last-played absent instead of
equal to that maximum. -/
theorem C8_counterexample :
    (mergePlays sampleGame (some c8epoch)).lastPlayed = none ∧
    maxDate c8epoch = 0 ∧
    ¬ ((mergePlays sampleGame (some c8epoch)).lastPlayed = some (maxDate c8epoch)) := by
  refine ⟨rfl, rfl, ?_⟩
  have h1 : (mergePlays sampleGame (some c8epoch)).lastPlayed = none := rfl
  rw [h1]
  exact fun h => Option.noConfusion h

/-- Modelled from the spec: the pause pattern the claim asserts — a
pause after every batch except the last. -/
def pausePatternSpec : Nat → List Bool
  | 0 => []
  | k + 1 => List.replicate k true ++ [false]

/-- A fetch outcome for batch `k` that lets the batch loop proceed
normally: the fetch resolves, the body is not a processing notice, it
parses, and the payload has (truthy) items. -/
def goodBatchAt (fetchResult : Nat → Except String ResponseM) (k : Nat) : Prop :=
  ∃ r, fetchResult k = .ok r ∧ isBggProcessing r.body = false ∧
    ∃ j, parseXmlToJson r.body = .ok j ∧
      ∃ items, jsOrO (jget j "item") (jgetO (jget j "items") "item") = some items ∧
        truthy items = true

/-- Under good batches, the loop issues every step in order, pauses
exactly as the slicing's pause conditions dictate, and succeeds. -/
theorem gamesLoop_log_of_good (itemMap : JsonVal → GameInfoM)
    (fetchResult : Nat → Except String ResponseM) :
    ∀ (steps : List (List String × Bool)) (k : Nat) (acc : List GameInfoM),
      (∀ i, i < steps.length → goodBatchAt fetchResult (k + i)) →
      (gamesLoop itemMap fetchResult steps k acc).log = steps ∧
      ∃ gs, (gamesLoop itemMap fetchResult steps k acc).result = .ok gs := by
  intro steps
  induction steps with
  | nil => exact fun k acc _ => ⟨rfl, ⟨acc, rfl⟩⟩
  | cons step rest ih =>
      intro k acc hgood
      obtain ⟨r, hr, hproc, j, hj, items, hitems, htruthy⟩ := by
        have h0 := hgood 0 (by simp)
        rwa [Nat.add_zero] at h0
      have hrest : ∀ i, i < rest.length → goodBatchAt fetchResult ((k + 1) + i) := by
        intro i hi
        have h1 := hgood (i + 1) (by simpa using Nat.succ_lt_succ hi)
        rwa [show k + (i + 1) = (k + 1) + i by omega] at h1
      have hred : gamesLoop itemMap fetchResult (step :: rest) k acc
          = ⟨(gamesLoop itemMap fetchResult rest (k + 1)
                (acc ++ (match items with | .arr l => l | v => [v]).map itemMap)).result,
              (step.1, step.2)
                :: (gamesLoop itemMap fetchResult rest (k + 1)
                    (acc ++ (match items with | .arr l => l | v => [v]).map itemMap)).log⟩ := by
        simp only [gamesLoop, hr, hproc, hj, hitems, htruthy, Bool.not_true, Bool.false_eq_true,
          if_false]
      have hih := ih (k + 1) (acc ++ (match items with | .arr l => l | v => [v]).map itemMap)
        hrest
      rw [hred]
      exact ⟨by simp [hih.1], hih.2⟩

/-- The batch slicing of the empty list is empty at any fuel. -/
theorem batchStepsAux_nil (fuel : Nat) : batchStepsAux fuel [] = [] := by
  cases fuel <;> rfl

/-- The batch slicing of a nonempty list is nonempty (given fuel). -/
theorem batchStepsAux_ne_nil (fuel : Nat) (ids : List String) (h : ids ≠ []) (hf : 1 ≤ fuel) :
    batchStepsAux fuel ids ≠ [] := by
  cases fuel with
  | zero => omega
  | succ n =>
      cases ids with
      | nil => exact absurd rfl h
      | cons a t => simp [batchStepsAux]

/-- Concatenating the batches recovers the id list in order. -/
theorem batchStepsAux_join : ∀ (fuel : Nat) (ids : List String), ids.length ≤ fuel →
    ((batchStepsAux fuel ids).map (fun b => b.1)).flatten = ids := by
  intro fuel
  induction fuel with
  | zero =>
      intro ids h
      have : ids = [] := List.length_eq_zero.mp (Nat.le_zero.mp h)
      subst this; rfl
  | succ n ih =>
      intro ids h
      cases ids with
      | nil => rfl
      | cons a t =>
          have hlen : ((a :: t).drop 20).length ≤ n := by
          
            rw [List.length_drop]
            simp only [List.length_cons] at h ⊢
            omega
          simp only [batchStepsAux, List.map_cons, List.flatten_cons]
          rw [ih _ hlen]
          exact List.take_append_drop 20 (a :: t)

/-- The pause conditions of the batch slicing follow the
pause-after-every-batch-except-the-last pattern. -/
theorem batchStepsAux_pause : ∀ (fuel : Nat) (ids : List String), ids.length ≤ fuel →
    (batchStepsAux fuel ids).map (fun b => b.2)
      = pausePatternSpec (batchStepsAux fuel ids).length := by
  intro fuel
  induction fuel with
  | zero =>
      intro ids h
      have : ids = [] := List.length_eq_zero.mp (Nat.le_zero.mp h)
      subst this; rfl
  | succ n ih =>
      intro ids h
      cases ids with
      | nil => rfl
      | cons a t =>
          simp only [List.length_cons] at h
          by_cases h20 : 20 < (a :: t).length
          · have hd : (a :: t).drop 20 ≠ [] := by
              intro hnil
              have hld := List.length_drop 20 (a :: t)
              rw [hnil] at hld
              simp only [List.length_nil, List.length_cons] at hld h20
              omega
            have hlen : ((a :: t).drop 20).length ≤ n := by
              rw [List.length_drop]
              simp only [List.length_cons]
              omega
            have hfuel : 1 ≤ n := by
              have hpos : 1 ≤ ((a :: t).drop 20).length :=
                List.length_pos.mpr hd
              omega
            obtain ⟨x, xs, hx⟩ : ∃ x xs, batchStepsAux n ((a :: t).drop 20) = x :: xs := by
              cases hcase : batchStepsAux n ((a :: t).drop 20) with
              | nil => exact absurd hcase (batchStepsAux_ne_nil n _ hd hfuel)
              | cons x xs => exact ⟨x, xs, rfl⟩
            have hih := ih _ hlen
            rw [hx] at hih
            simp only [List.map_cons, List.length_cons] at hih
            have hdec : decide (20 < t.length + 1) = true := decide_eq_true (by simpa using h20)
            simp only [batchStepsAux, List.map_cons, List.length_cons, hx, pausePatternSpec,
              List.replicate_succ, List.cons_append, hdec]
            exact congrArg (List.cons true) (hih.trans rfl)
          · have hd : (a :: t).drop 20 = [] := by
              apply List.drop_eq_nil_of_le
              simp only [List.length_cons] at h20 ⊢
              omega
            simp only [List.length_cons] at h20
            simp [batchStepsAux, hd, batchStepsAux_nil, pausePatternSpec]
            omega

/-- Every batch is nonempty, holds at most 20 ids, and holds exactly 20
whenever its pause condition fires. -/
theorem batchStepsAux_sizes : ∀ (fuel : Nat) (ids : List String), ids.length ≤ fuel →
    ∀ b ∈ batchStepsAux fuel ids,
      b.1 ≠ [] ∧ b.1.length ≤ 20 ∧ (b.2 = true → b.1.length = 20) := by
  intro fuel
  induction fuel with
  | zero =>
      intro ids h b hb
      have : ids = [] := List.length_eq_zero.mp (Nat.le_zero.mp h)
      subst this
      cases hb
  | succ n ih =>
      intro ids h b hb
      cases ids with
      | nil => cases hb
      | cons a t =>
          simp only [List.length_cons] at h
          simp only [batchStepsAux] at hb
          cases hb with
          | head =>
              have hlt : (List.take 20 (a :: t)).length = min 20 (a :: t).length :=
                List.length_take 20 (a :: t)
              simp only [List.length_cons] at hlt
              refine ⟨?_, ?_, ?_⟩
              · apply List.ne_nil_of_length_pos
                rw [hlt]
                omega
              · rw [hlt]; omega
              · intro hdec
                have h20 : 20 < (a :: t).length := of_decide_eq_true hdec
                simp only [List.length_cons] at h20
                rw [hlt]; omega
          | tail _ hmem =>
              have hlen : ((a :: t).drop 20).length ≤ n := by
                rw [List.length_drop]
                simp only [List.length_cons]
                omega
              exact ih _ hlen b hmem

/-- A 45-id input list. -/
def ids45 : List String := (List.range 45).map (fun n => toString n)

/-- A detail response body carrying one item. -/
def okItems : XmlDoc :=
  .wellFormed (.elem "items" [] (xmlKidsOf [.elem "item" [("id", "1")] .nil ""]) "")

/-- A well-formed detail response body carrying no items. -/
def noItems : XmlDoc := .wellFormed (.elem "items" [] .nil "")

/-- A response source whose first batch returns no items and whose later
batches return items. -/
def cexFetch : Nat → Except String ResponseM := fun k =>
  .ok (mkResp 200 "OK" (if k = 0 then noItems else okItems))

/-- A response source that always returns items. -/
def goodFetch : Nat → Except String ResponseM := constFetch (mkResp 200 "OK" okItems)

/-- The execution trace of the batch detail operation on 45 ids when the
first batch's response carries no items. -/
def c7trace : GamesCallTrace := getGamesInfo (fun _ => emptyGameInfo) cexFetch (some ids45)

/-- Claim C7 (counterexample): on a 45-id input whose first batch
response is well-formed but carries no items, the operation still issues
3 batches of sizes 20, 20, 5 in order, but the `continue` for the
item-less first batch skips the inter-batch pause: the executed pause
pattern is [false, true, false], not the claimed
pause-between-every-consecutive-pair pattern [true, true, false]. -/
theorem C7_counterexample :
    (c7trace.log.map (fun b => (b.1.length, b.2))) = [(20, false), (20, true), (5, false)] ∧
    c7trace.log.length = 3 ∧
    ¬ (c7trace.log.map (fun b => b.2) = pausePatternSpec c7trace.log.length) := by
  refine ⟨rfl, rfl, ?_⟩
  have hx : c7trace.log.map (fun b => b.2) = [false, true, false] := rfl
  have hy : c7trace.log.length = 3 := rfl
  rw [hx, hy]
  decide

/-- Claim C7 (amended): for every id list the batch detail operation
partitions the list into batches of at most 20 ids — every batch that is
followed by a pause holds exactly 20 — issued strictly sequentially in
list order (concatenating the batches recovers the input), and whenever
every batch response resolves, parses and yields items, the executed
trace is exactly those batches with an inter-batch pause between
consecutive batches and none after the last; a batch whose response
yields no items proceeds to the next batch without pausing. -/
theorem C7_amended :
    ∀ (ids : List String) (itemMap : JsonVal → GameInfoM)
      (fetchResult : Nat → Except String ResponseM),
      ids ≠ [] →
      (∀ k, k < (batchSteps ids).length → goodBatchAt fetchResult k) →
      ((getGamesInfo itemMap fetchResult (some ids)).log = batchSteps ids ∧
        ∃ gs, (getGamesInfo itemMap fetchResult (some ids)).result = .ok gs) ∧
      ((batchSteps ids).map (fun b => b.1)).flatten = ids ∧
      ((batchSteps ids).map (fun b => b.2)) = pausePatternSpec (batchSteps ids).length ∧
      (∀ b ∈ batchSteps ids,
        b.1 ≠ [] ∧ b.1.length ≤ 20 ∧ (b.2 = true → b.1.length = 20)) := by
  intro ids itemMap fetchResult hne hgood
  have hgi : getGamesInfo itemMap fetchResult (some ids)
      = gamesLoop itemMap fetchResult (batchSteps ids) 0 [] := by
    obtain ⟨a, t, rfl⟩ : ∃ a t, ids = a :: t := by
      cases ids with
      | nil => exact absurd rfl hne
      | cons a t => exact ⟨a, t, rfl⟩
    rfl
  have hloop := gamesLoop_log_of_good itemMap fetchResult (batchSteps ids) 0 []
    (by intro i hi; simpa using hgood i hi)
  exact ⟨⟨by rw [hgi]; exact hloop.1, by rw [hgi]; exact hloop.2⟩,
    batchStepsAux_join _ _ le_rfl, batchStepsAux_pause _ _ le_rfl,
    batchStepsAux_sizes _ _ le_rfl⟩

/-- Claim C7 (witness): on the 45-id input with every batch returning
items, the trace is exactly 3 batches of sizes 20, 20, 5 in order, with
pauses after the first two and none after the last. -/
theorem C7_witness :
    (getGamesInfo (fun _ => emptyGameInfo) goodFetch (some ids45)).log = batchSteps ids45 ∧
    ((batchSteps ids45).map (fun b => (b.1.length, b.2)))
      = [(20, true), (20, true), (5, false)] ∧
    ((batchSteps ids45).map (fun b => b.2)) = pausePatternSpec (batchSteps ids45).length := by
  have hgood : ∀ k, k < (batchSteps ids45).length → goodBatchAt goodFetch k := by
    intro k _
    exact ⟨mkResp 200 "OK" okItems, rfl, rfl, _, rfl, _, rfl, rfl⟩
  have h := C7_amended ids45 (fun _ => emptyGameInfo) goodFetch (by decide) hgood
  exact ⟨h.1.1, rfl, h.2.2.1⟩

/-- Claim C1 (counterexample): a 200 response whose body is not
well-formed XML produces a parse failure inside `parseXmlToJson`, yet
`getUserCollection` does not let it escape as an exception — it is
recovered into a success result with an empty collection. -/
theorem C1_counterexample :
    parseXmlToJson (.malformed "unexpected end of input")
        = .error ("XML parsing error: " ++ "unexpected end of input") ∧
    getUserCollection (fun j => j)
        (constFetch (mkResp 200 "OK" (.malformed "unexpected end of input"))) "alice"
      = .ok [] :=
  ⟨rfl, rfl⟩

/-- Claim C1 (amended): no failure category crosses the API Client
boundary as an exception — each public operation recovers every failure,
malformed XML included, into the discriminated result type: for a 200
response with a not-well-formed body, validate-username reports
user-not-found (its extractor catches the parse throw and returns null),
get-collection reports success with an empty collection (its extractor
catches and returns []), and the batch detail operation returns a
failure result carrying the parse-error message with `retryLater`
(its outer catch recovers the throw). -/
theorem C1_amended :
    ∀ (u msg : String), strTrim u ≠ "" →
    ∀ {α : Type} (mapItem : JsonVal → α) (itemMap : JsonVal → GameInfoM)
      (ids : List String), ids ≠ [] →
      validateUsername (constFetch (mkResp 200 "OK" (.malformed msg))) u
          = .fail ("User \"" ++ u ++ "\" not found on BoardGameGeek") none none ∧
      getUserCollection mapItem (constFetch (mkResp 200 "OK" (.malformed msg))) u
          = .ok [] ∧
      (getGamesInfo itemMap (constFetch (mkResp 200 "OK" (.malformed msg))) (some ids)).result
          = .fail ("XML parsing error: " ++ msg) (some true) none := by
  intro u msg hu α mapItem itemMap ids hids
  obtain ⟨a, t, rfl⟩ : ∃ a t, ids = a :: t := by
    cases ids with
    | nil => exact absurd rfl hids
    | cons a t => exact ⟨a, t, rfl⟩
  refine ⟨?_, ?_, rfl⟩
  · show validateUsername _ u = _
    unfold validateUsername
    rw [if_neg hu]
    rfl
  · show getUserCollection _ _ u = _
    unfold getUserCollection
    rw [if_neg hu]
    rfl

/-- Claim C1 (witness): the amended behavior at a concrete username,
parse-error message and id list. -/
theorem C1_witness :
    validateUsername (constFetch (mkResp 200 "OK" (.malformed "oops"))) "alice"
        = .fail ("User \"" ++ "alice" ++ "\" not found on BoardGameGeek") none none ∧
    getUserCollection (fun j => j)
        (constFetch (mkResp 200 "OK" (.malformed "oops"))) "alice" = .ok [] ∧
    (getGamesInfo (fun _ => emptyGameInfo)
        (constFetch (mkResp 200 "OK" (.malformed "oops"))) (some ["1"])).result
        = .fail ("XML parsing error: " ++ "oops") (some true) none :=
  C1_amended "alice" "oops" (by decide) (fun j => j) (fun _ => emptyGameInfo) ["1"]
    (by decide)
